import Mathlib

/-!
Verification development for the multi-source token registry
(`src/api/tokens/tokens.ts`).

The embedding models:
  * token records (`TokenEntity`, the tagged union over native / erc20),
  * the per-chain dual-indexed table (`ChainTokens`) and the process-wide
    registry (`Registry`, the module-level `tokensByChain` cache),
  * the query surface (`getTokenById`, `getTokenByAddress`,
    `getTokenNative`, `getTokenWrappedNative`, `getTokenFees`,
    `wrappedToNative`, `areTokensEqual`),
  * the three source adapters (`fetchVaultTokensForChain`,
    `fetchBoostTokensForChain`, `fetchAddressBookTokensForChain`),
  * the aggregator (`addToken`, the address-book precedence pass,
    `mergeTokens`, `fetchTokensForChain`), and
  * the refresh publication step (`updateTokens`, with `promiseAll`
    modelling the all-or-nothing semantics of `Promise.all`).

JavaScript maps (`Record<string, T>`) are modelled as `String → Option T`;
`undefined` is `none`.  JavaScript string truthiness (`if (address)`,
`byId['NATIVE']` checks, `a || b` defaults) is modelled explicitly:
the empty string is falsy.  `address.toLowerCase()` is modelled by
`strLower` (per-character ASCII lowering, the same on the ASCII range as
the runtime behaviour).  The externally supplied checksummer
(viem `getAddress`) and `toApiChain` are abstract function parameters.
Exceptions become `Except String`.
-/

/-- Model of a JS `Record<string, α>`: a key is either present or `undefined`. -/
def StrMap (α : Type) : Type := String → Option α

def StrMap.empty {α : Type} : StrMap α := fun _ => none

def StrMap.insert {α : Type} (m : StrMap α) (k : String) (v : α) : StrMap α :=
  fun q => if q = k then some v else m q

/-- JS truthiness of a possibly-undefined string: `undefined` and `""` are falsy. -/
def optStrTruthy : Option String → Bool
  | none => false
  | some s => s != ""

/-- JS `a || b` for a possibly-undefined string `a` (empty string falls back). -/
def orDefaultStr (o : Option String) (d : String) : String :=
  match o with
  | some s => if s = "" then d else s
  | none => d

/-- JS `a || b` for a possibly-undefined number `a` (`0` falls back). -/
def orDefaultNat (o : Option Nat) (d : Nat) : Nat :=
  match o with
  | some n => if n = 0 then d else n
  | none => d

/-- Model of `String.prototype.toLowerCase` (per-character ASCII lowering). -/
def strLower (s : String) : String := ⟨s.data.map Char.toLower⟩

/-- Tag of the `type` field of the token union: `'native' | 'erc20'`. -/
inductive TokenType where
  | native
  | erc20
deriving DecidableEq, Repr

/-- A token record (`TokenEntity` in `types.ts`): both variants share these
fields; `bridge` and `staked` are the optional fields. -/
structure TokenEntity where
  type : TokenType
  id : String
  symbol : String
  name : String
  chainId : String
  oracle : String
  oracleId : String
  address : String
  decimals : Nat
  bridge : Option String := none
  staked : Option Bool := none
deriving DecidableEq, Repr

/-- The per-chain dual-indexed table (`ChainTokens`): id → address and
lower-cased address → record. -/
structure ChainTokens where
  byId : StrMap String
  byAddress : StrMap TokenEntity

/-- The process-wide cache `tokensByChain` (partial: absent chains are `none`). -/
def Registry : Type := StrMap ChainTokens

def emptyChainTokens : ChainTokens := { byId := StrMap.empty, byAddress := StrMap.empty }

/-! ## Query surface -/

def isTokenNative (t : TokenEntity) : Bool := t.type == TokenType.native

def isTokenErc20 (t : TokenEntity) : Bool := t.type == TokenType.erc20

def areTokensEqual (tokenA tokenB : TokenEntity) : Bool :=
  tokenA.chainId == tokenB.chainId && tokenA.address == tokenB.address
    && tokenA.type == tokenB.type

def getTokenByAddress (reg : Registry) (address chainId : String) : Option TokenEntity :=
  (reg chainId).bind fun tbl => tbl.byAddress (strLower address)

/-- `getTokenById`: two-step lookup; a falsy (absent or empty) stored address
falls through and yields `undefined`. -/
def getTokenById (reg : Registry) (id chainId : String) : Option TokenEntity :=
  match (reg chainId).bind fun tbl => tbl.byId id with
  | some address => if address == "" then none else getTokenByAddress reg address chainId
  | none => none

/-- Shared shape of `getTokenNative` / `getTokenWrappedNative` / `getTokenFees`:
`if (!x || !p(x)) throw new Error(msg); return x;`. -/
def guardTok (o : Option TokenEntity) (p : TokenEntity → Bool) (msg : String) :
    Except String TokenEntity :=
  match o with
  | some t => if p t then .ok t else .error msg
  | none => .error msg

def getTokenNative (reg : Registry) (chainId : String) : Except String TokenEntity :=
  guardTok (getTokenById reg "NATIVE" chainId) isTokenNative
    ("No native token found for chain " ++ chainId)

def getTokenWrappedNative (reg : Registry) (chainId : String) : Except String TokenEntity :=
  guardTok (getTokenById reg "WNATIVE" chainId) isTokenErc20
    ("No wnative token found for chain " ++ chainId)

def getTokenFees (reg : Registry) (chainId : String) : Except String TokenEntity :=
  guardTok (getTokenById reg "FEES" chainId) isTokenErc20
    ("No fees token found for chain " ++ chainId)

/-- `wrappedToNative`: note that `getTokenWrappedNative` is called before the
equality test, so its failure propagates in every case. -/
def wrappedToNative (reg : Registry) (token : TokenEntity) : Except String TokenEntity :=
  match getTokenWrappedNative reg token.chainId with
  | .error e => .error e
  | .ok wnative =>
    if areTokensEqual token wnative then getTokenNative reg token.chainId
    else .ok token

/-! ## Source adapters -/

/-- Vault fields consumed by the adapters (`type` is the vault kind tag,
`'cowcentrated'` being the excluded kind). -/
structure Vault where
  type : String
  token : String
  tokenAddress : Option String
  tokenDecimals : Nat
  oracle : String
  oracleId : String
  earnedToken : String
  earnedTokenAddress : Option String
  earnedTokenDecimals : Option Nat
  earnContractAddress : String
deriving DecidableEq, Repr

/-- Boost reward fields consumed by the boost adapter. -/
structure BoostReward where
  type : String
  address : Option String
  symbol : String
  decimals : Option Nat
  oracleId : Option String
  oracle : Option String
  chainId : Option String
deriving DecidableEq, Repr

structure Boost where
  rewards : List BoostReward
deriving DecidableEq, Repr

/-- Vault-derived adapter: deposit token (unless cowcentrated / no address) and
earned token (unless native or equal to the vault receipt token). -/
def fetchVaultTokensForChain (chainId : String) (vaults : List Vault) : List TokenEntity :=
  vaults.foldl
    (fun tokens vault =>
      let depositRecord : TokenEntity :=
        { type := .erc20, id := vault.token, symbol := vault.token,
          name := vault.token, chainId := chainId, oracle := vault.oracle,
          oracleId := vault.oracleId, address := vault.tokenAddress.getD "",
          decimals := vault.tokenDecimals }
      let tokens :=
        if optStrTruthy vault.tokenAddress && (vault.type != "cowcentrated") then
          tokens ++ [depositRecord]
        else tokens
      let earned := vault.earnedTokenAddress.getD ""
      let earnedRecord : TokenEntity :=
        { type := .erc20, id := vault.earnedToken, symbol := vault.earnedToken,
          name := vault.earnedToken, chainId := chainId, oracle := "tokens",
          oracleId := vault.earnedToken, address := earned,
          decimals := orDefaultNat vault.earnedTokenDecimals 18 }
      if optStrTruthy vault.earnedTokenAddress && (earned != "native")
          && (earned != vault.earnContractAddress) then
        tokens ++ [earnedRecord]
      else tokens)
    []

/-- The emission guard of the boost adapter: the reward is of token type, has
a truthy address that is not the native sentinel, and the address is not a
known vault receipt-token address. -/
def boostRewardKeep (vaultAddresses : List String) (reward : BoostReward) : Bool :=
  reward.type == "token" && optStrTruthy reward.address
    && (reward.address.getD "" != "native")
    && !(vaultAddresses.contains (reward.address.getD ""))

/-- The record emitted for a boost reward that passes the guard (honouring the
per-reward chain override through `toApi`, the model of `toApiChain`). -/
def mkBoostRecord (toApi : String → String) (chainId : String)
    (reward : BoostReward) : TokenEntity :=
  { type := .erc20, id := reward.symbol, symbol := reward.symbol,
    name := reward.symbol,
    chainId := if optStrTruthy reward.chainId then toApi (reward.chainId.getD "")
      else chainId,
    oracleId := orDefaultStr reward.oracleId reward.symbol,
    oracle := orDefaultStr reward.oracle "tokens",
    address := reward.address.getD "",
    decimals := orDefaultNat reward.decimals 18 }

/-- One boost reward considered for emission: `some` exactly when
`boostRewardKeep` holds. -/
def boostRewardRecord? (toApi : String → String) (chainId : String)
    (vaultAddresses : List String) (reward : BoostReward) : Option TokenEntity :=
  if boostRewardKeep vaultAddresses reward then
    some (mkBoostRecord toApi chainId reward)
  else none

/-- Boost-derived adapter: `vaults` is the `getSingleChainVaults` listing whose
`earnContractAddress` set is the exclusion filter. -/
def fetchBoostTokensForChain (toApi : String → String) (chainId : String)
    (boosts : List Boost) (vaults : List Vault) : List TokenEntity :=
  let vaultAddresses := vaults.map (fun v => v.earnContractAddress)
  boosts.foldl
    (fun tokens boost =>
      boost.rewards.foldl
        (fun tokens reward =>
          match boostRewardRecord? toApi chainId vaultAddresses reward with
          | some t => tokens ++ [t]
          | none => tokens)
        tokens)
    []

/-- Curated address-book entry fields consumed by the adapter. -/
structure ABToken where
  name : String
  symbol : String
  address : String
  decimals : Nat
  oracle : Option String := none
  oracleId : Option String := none
  bridge : Option String := none
  staked : Option Bool := none
deriving DecidableEq, Repr

/-- A chain address book: entry list in insertion order plus the declared
native symbol and native oracle id. -/
structure ChainBook where
  tokens : List (String × ABToken)
  nativeSymbol : String
  nativeOracleId : String
deriving DecidableEq, Repr

/-- Object key lookup on the entry list. -/
def abLookup (tokens : List (String × ABToken)) (key : String) : Option ABToken :=
  (tokens.find? (fun p => p.1 == key)).map (fun p => p.2)

/-- Synthesized Native record (both the native-symbol entry and the extra
record emitted alongside `WNATIVE`). -/
def mkAbNative (chainId : String) (id nativeSymbol nativeOracleId tokenName : String)
    (decimals : Nat) : TokenEntity :=
  { type := .native, id := id, symbol := nativeSymbol, name := tokenName,
    chainId := chainId, oracle := "tokens", oracleId := nativeOracleId,
    address := "native", decimals := decimals, bridge := some "native" }

/-- Curated-reference adapter: fails soft (empty) without a book, without
entries, or without a `WNATIVE` entry. -/
def fetchAddressBookTokensForChain (chainId : String) (book : Option ChainBook) :
    List TokenEntity :=
  match book with
  | none => []
  | some chainBook =>
    if chainBook.tokens.isEmpty || (abLookup chainBook.tokens "WNATIVE").isNone then []
    else
      chainBook.tokens.foldl
        (fun tokens entry =>
          let id := entry.1
          let token := entry.2
          if strLower id == strLower chainBook.nativeSymbol then
            tokens ++ [mkAbNative chainId id chainBook.nativeSymbol
              chainBook.nativeOracleId token.name token.decimals]
          else
            let erc : TokenEntity :=
              { type := .erc20, id := id, symbol := token.symbol, name := token.name,
                chainId := chainId, oracle := orDefaultStr token.oracle "tokens",
                oracleId := orDefaultStr token.oracleId id, address := token.address,
                decimals := token.decimals,
                bridge := if optStrTruthy token.bridge then token.bridge else none,
                staked := if token.staked == some true then some true else none }
            if id == "WNATIVE" then
              tokens ++ [erc, mkAbNative chainId "NATIVE" chainBook.nativeSymbol
                chainBook.nativeOracleId token.name token.decimals]
            else tokens ++ [erc])
        []

/-! ## Aggregator -/

/-- Stored form of a newly inserted record: native records are stored as-is,
erc20 records with a checksummed (`chk`, the viem `getAddress`) address.
Here `chk` is total: it models `getAddress` over aggregations in which every
checksumming call succeeds.  `getAddress` also has an error path — it throws
on an invalid address string such as `""` — which is modelled separately by
the fallible insertion pipeline (`addTokenE` and `fetchTokensForChainE`
below); properties that depend on aggregation *failing* at an invalid
address are stated over that pipeline. -/
def storeForm (chk : String → String) (t : TokenEntity) : TokenEntity :=
  if t.type = TokenType.native then t else { t with address := chk t.address }

/-- `addToken`: first-write-wins id map; first-write-wins address map except
for the bridge backfill on an existing bridge-less record. -/
def addToken (chk : String → String) (token : TokenEntity) (acc : ChainTokens) :
    ChainTokens :=
  let addressLower := strLower token.address
  let newById :=
    match acc.byId token.id with
    | none => StrMap.insert acc.byId token.id addressLower
    | some _ => acc.byId
  let newByAddress :=
    match acc.byAddress addressLower with
    | none => StrMap.insert acc.byAddress addressLower (storeForm chk token)
    | some existing =>
      if !(optStrTruthy existing.bridge) && optStrTruthy token.bridge then
        StrMap.insert acc.byAddress addressLower { existing with bridge := token.bridge }
      else acc.byAddress
  { byId := newById, byAddress := newByAddress }

/-- One step of the address-book precedence pass:
`byAddress[key].oracleId = token.oracleId; byAddress[key].symbol = token.symbol`.
The `none` branch is unreachable in `fetchTokensForChain` because every
address-book record was already inserted through `addToken`. -/
def applyOverride (m : StrMap TokenEntity) (token : TokenEntity) : StrMap TokenEntity :=
  let addressKey := strLower token.address
  match m addressKey with
  | some existing =>
    StrMap.insert m addressKey
      { existing with oracleId := token.oracleId, symbol := token.symbol }
  | none => m

/-- The merge performed by `fetchTokensForChain` after the three adapters
resolve: insert the concatenation in priority order, then run the
address-book precedence pass. -/
def mergeTokens (chk : String → String)
    (vaultTokens boostTokens abTokens : List TokenEntity) : ChainTokens :=
  let base := (vaultTokens ++ boostTokens ++ abTokens).foldl
    (fun acc t => addToken chk t acc) emptyChainTokens
  { base with byAddress := abTokens.foldl applyOverride base.byAddress }

/-- `fetchTokensForChain`, with the three adapter outputs as inputs: chain
validity guard, merge, then the `NATIVE` / `WNATIVE` truthiness validation. -/
def fetchTokensForChain (chk : String → String) (isApi : String → Bool)
    (chainId : String) (vaultTokens boostTokens abTokens : List TokenEntity) :
    Except String ChainTokens :=
  if !(isApi chainId) then .error ("Invalid chain " ++ chainId)
  else
    let tbl := mergeTokens chk vaultTokens boostTokens abTokens
    if !(optStrTruthy (tbl.byId "NATIVE")) then
      .error ("No native token loaded for chain " ++ chainId)
    else if !(optStrTruthy (tbl.byId "WNATIVE")) then
      .error ("No wnative token loaded for chain " ++ chainId)
    else .ok tbl

/-- `fetchTokensForChain` composed with the three source adapters on their
raw upstream data. -/
def fetchTokensForChainFull (chk toApi : String → String) (isApi : String → Bool)
    (chainId : String) (vaults : List Vault) (boosts : List Boost)
    (singleChainVaults : List Vault) (book : Option ChainBook) :
    Except String ChainTokens :=
  fetchTokensForChain chk isApi chainId
    (fetchVaultTokensForChain chainId vaults)
    (fetchBoostTokensForChain toApi chainId boosts singleChainVaults)
    (fetchAddressBookTokensForChain chainId book)

/-! ## Refresh orchestrator (publication step) -/

/-- `Promise.all` over per-chain aggregations: the whole cycle fails if any
chain fails. -/
def promiseAll (fetch : String → Except String ChainTokens) :
    List String → Except String (List ChainTokens)
  | [] => .ok []
  | c :: cs =>
    match fetch c, promiseAll fetch cs with
    | .ok t, .ok ts => .ok (t :: ts)
    | .error e, _ => .error e
    | .ok _, .error e => .error e

/-- The per-chain publication loop `chains.forEach((chainId, i) => ...)`. -/
def publishAll (reg : Registry) (entries : List (String × ChainTokens)) : Registry :=
  entries.foldl (fun r e => StrMap.insert r e.1 e.2) reg

/-- One `updateTokens` cycle on the registry: publish every chain on overall
success, keep the registry untouched on any failure (the `catch` branch). -/
def updateTokens (fetch : String → Except String ChainTokens) (chains : List String)
    (reg : Registry) : Registry :=
  match promiseAll fetch chains with
  | .ok byChain => publishAll reg (chains.zip byChain)
  | .error _ => reg

/-! ## Aggregator with the checksummer error path

viem `getAddress` throws on an invalid address string (in particular on
`""`).  Inside `addToken` that throw escapes `fetchTokensForChain` and fails
the whole aggregation for the chain.  `chk? : String → Option String` models
`getAddress` with this error path (`none` = throw); `addTokenE` is `addToken`
with the throw propagated, and `fetchTokensForChainE` the resulting fallible
aggregation.  A run in which every checksumming call succeeds coincides with
the total pipeline at the checksummer `chkOf chk?`. -/

/-- The total function a succeeding run of `chk?` realises. -/
def chkOf (chk? : String → Option String) : String → String :=
  fun s => (chk? s).getD s

/-- `addToken` with the checksummer error path: on a fresh non-native insert,
`getAddress` may throw (`none`), aborting the aggregation. -/
def addTokenE (chk? : String → Option String) (token : TokenEntity)
    (acc : ChainTokens) : Option ChainTokens :=
  let addressLower := strLower token.address
  let newById :=
    match acc.byId token.id with
    | none => StrMap.insert acc.byId token.id addressLower
    | some _ => acc.byId
  match acc.byAddress addressLower with
  | none =>
    if token.type = TokenType.native then
      some { byId := newById, byAddress := StrMap.insert acc.byAddress addressLower token }
    else
      match chk? token.address with
      | some checked =>
        some { byId := newById,
               byAddress := StrMap.insert acc.byAddress addressLower
                 { token with address := checked } }
      | none => none
  | some existing =>
    if !(optStrTruthy existing.bridge) && optStrTruthy token.bridge then
      some { byId := newById,
             byAddress := StrMap.insert acc.byAddress addressLower
               { existing with bridge := token.bridge } }
    else some { byId := newById, byAddress := acc.byAddress }

/-- The insertion loop with the checksummer error path propagated. -/
def addTokensE (chk? : String → Option String) :
    List TokenEntity → ChainTokens → Option ChainTokens
  | [], acc => some acc
  | t :: ts, acc =>
    match addTokenE chk? t acc with
    | some acc2 => addTokensE chk? ts acc2
    | none => none

/-- `fetchTokensForChain` over the fallible insertion pipeline (`none` is any
thrown error: invalid chain, checksummer throw, or failed validation). -/
def fetchTokensForChainE (chk? : String → Option String) (isApi : String → Bool)
    (chainId : String) (vaultTokens boostTokens abTokens : List TokenEntity) :
    Option ChainTokens :=
  if !(isApi chainId) then none
  else
    match addTokensE chk? (vaultTokens ++ boostTokens ++ abTokens) emptyChainTokens with
    | none => none
    | some base =>
      let tbl : ChainTokens :=
        { base with byAddress := abTokens.foldl applyOverride base.byAddress }
      if !(optStrTruthy (tbl.byId "NATIVE")) then none
      else if !(optStrTruthy (tbl.byId "WNATIVE")) then none
      else some tbl

/-- `fetchTokensForChainE` composed with the three source adapters. -/
def fetchTokensForChainFullE (chk? : String → Option String) (toApi : String → String)
    (isApi : String → Bool) (chainId : String) (vaults : List Vault)
    (boosts : List Boost) (singleChainVaults : List Vault) (book : Option ChainBook) :
    Option ChainTokens :=
  fetchTokensForChainE chk? isApi chainId
    (fetchVaultTokensForChain chainId vaults)
    (fetchBoostTokensForChain toApi chainId boosts singleChainVaults)
    (fetchAddressBookTokensForChain chainId book)

/-- A concrete fallible checksummer that, like `getAddress`, rejects the
empty string. -/
def strictChk : String → Option String := fun s => if s = "" then none else some s

/-! ## Projections used to state field-preservation properties -/

/-- Identity checksummer, used to instantiate the abstract `getAddress` /
`toApiChain` parameters in concrete examples. -/
def idStr (s : String) : String := s

/-- A record with its `bridge` tag erased: two records agree on every field
except possibly `bridge` iff their `sansBridge` images are equal. -/
def sansBridge (t : TokenEntity) : TokenEntity := { t with bridge := none }

/-- The fields never touched by the bridge backfill nor by the address-book
precedence pass (everything except `symbol`, `oracleId` and `bridge`). -/
def coreOf (t : TokenEntity) :
    TokenType × String × String × String × String × String × Nat × Option Bool :=
  (t.type, t.id, t.name, t.chainId, t.oracle, t.address, t.decimals, t.staked)

/-! ## Concrete data used by witnesses and counterexamples -/

/-- A minimal healthy address book for chain `eth`. -/
def ethBook : ChainBook :=
  { tokens := [("WNATIVE",
      { name := "Wrapped Ether", symbol := "WETH", address := "0xc02a", decimals := 18 })],
    nativeSymbol := "ETH", nativeOracleId := "ETH" }

/-- The table aggregated from `ethBook` alone. -/
def ethTable : ChainTokens :=
  mergeTokens idStr [] [] (fetchAddressBookTokensForChain "eth" (some ethBook))

/-- A registry that has published `ethTable` for chain `eth`. -/
def ethRegistry : Registry := StrMap.insert StrMap.empty "eth" ethTable

/-- The wrapped-native record stored in `ethTable`. -/
def ethWnative : TokenEntity :=
  { type := .erc20, id := "WNATIVE", symbol := "WETH", name := "Wrapped Ether",
    chainId := "eth", oracle := "tokens", oracleId := "WNATIVE", address := "0xc02a",
    decimals := 18 }

/-- The native record stored in `ethTable`. -/
def ethNative : TokenEntity :=
  { type := .native, id := "NATIVE", symbol := "ETH", name := "Wrapped Ether",
    chainId := "eth", oracle := "tokens", oracleId := "ETH", address := "native",
    decimals := 18, bridge := some "native" }

/-- The registry before any successful refresh. -/
def emptyRegistry : Registry := fun _ => none

/-- A record not equal to `ethWnative` (different address). -/
def fooToken : TokenEntity :=
  { type := .erc20, id := "FOO", symbol := "FOO", name := "Foo", chainId := "eth",
    oracle := "tokens", oracleId := "FOO", address := "0xf00", decimals := 18 }

/-- A vault whose deposit token is (perversely but legally) named `NATIVE`. -/
def nativeNamedVault : Vault :=
  { type := "standard", token := "NATIVE", tokenAddress := some "0xaaa",
    tokenDecimals := 18, oracle := "tokens", oracleId := "AAA", earnedToken := "mooAAA",
    earnedTokenAddress := none, earnedTokenDecimals := none,
    earnContractAddress := "0xmoo" }

/-- Refresh of chain `eth` with `nativeNamedVault` plus the healthy book:
succeeds, yet `NATIVE` resolves to an erc20 record. -/
def c1Fetch : Except String ChainTokens :=
  fetchTokensForChainFull idStr idStr (fun _ => true) "eth" [nativeNamedVault] [] []
    (some ethBook)

def c1Registry : Registry := fun c => if c == "eth" then c1Fetch.toOption else none

/-- A per-chain fetch where chain `bad` fails and every other chain succeeds. -/
def c2Fetch : String → Except String ChainTokens :=
  fun c => if c == "bad" then .error "boom" else .ok emptyChainTokens

/-- A vault whose receipt token sits at address `0xmoo`. -/
def mooVault : Vault :=
  { type := "standard", token := "T", tokenAddress := some "0xt", tokenDecimals := 18,
    oracle := "tokens", oracleId := "T", earnedToken := "mooT",
    earnedTokenAddress := some "0xearn", earnedTokenDecimals := some 18,
    earnContractAddress := "0xmoo" }

/-- A boost reward paid in the receipt token of `mooVault`. -/
def mooReward : BoostReward :=
  { type := "token", address := some "0xmoo", symbol := "mooT", decimals := some 18,
    oracleId := none, oracle := none, chainId := none }

/-- First writer for address `0xAB` (id `X`). -/
def wTok1 : TokenEntity :=
  { type := .erc20, id := "X", symbol := "X1", name := "X1", chainId := "eth",
    oracle := "tokens", oracleId := "K1", address := "0xAB", decimals := 18 }

/-- Later record at the same lower-cased address, carrying a bridge tag. -/
def wTok2 : TokenEntity :=
  { type := .erc20, id := "X", symbol := "X2", name := "X2", chainId := "eth",
    oracle := "tokens", oracleId := "K2", address := "0xab", decimals := 6,
    bridge := some "axelar" }

/-! ## Helper lemmas -/

theorem toNat_charOfNat_of_valid (n : Nat) (h : n.isValidChar) :
    (Char.ofNat n).toNat = n := by
  simp [Char.ofNat, h, Char.ofNatAux, Char.toNat, UInt32.toNat, BitVec.toNat_ofNatLt]

theorem charToLower_idem (c : Char) : c.toLower.toLower = c.toLower := by
  by_cases h : c.toNat ≥ 65 ∧ c.toNat ≤ 90
  · have hv : (c.toNat + 32).isValidChar := Or.inl (by omega)
    have h1 : c.toLower = Char.ofNat (c.toNat + 32) := by
      unfold Char.toLower
      rw [if_pos h]
    have ht := toNat_charOfNat_of_valid _ hv
    have h2 : (Char.ofNat (c.toNat + 32)).toLower = Char.ofNat (c.toNat + 32) := by
      unfold Char.toLower
      rw [if_neg]
      rw [ht]
      omega
    rw [h1, h2]
  · have h1 : c.toLower = c := by
      unfold Char.toLower
      rw [if_neg h]
    rw [h1, h1]

theorem listLower_idem (l : List Char) :
    (l.map Char.toLower).map Char.toLower = l.map Char.toLower := by
  induction l with
  | nil => rfl
  | cons c cs ih => simp only [List.map_cons, ih, charToLower_idem]

theorem strLower_idem (s : String) : strLower (strLower s) = strLower s :=
  congrArg String.mk (listLower_idem s.data)

theorem strMap_insert_self {α : Type} (m : StrMap α) (k : String) (v : α) :
    m.insert k v k = some v := by
  simp [StrMap.insert]

theorem strMap_insert_other {α : Type} (m : StrMap α) {k q : String} (v : α)
    (h : q ≠ k) : m.insert k v q = m q := by
  simp [StrMap.insert, h]

theorem optStrTruthy_iff (o : Option String) :
    optStrTruthy o = true ↔ ∃ s, o = some s ∧ s ≠ "" := by
  cases o with
  | none => simp [optStrTruthy]
  | some s => simp [optStrTruthy]

theorem guardTok_isOk_false_iff (o : Option TokenEntity) (p : TokenEntity → Bool)
    (msg : String) :
    (guardTok o p msg).isOk = false ↔ ¬∃ t, o = some t ∧ p t = true := by
  cases o with
  | none => simp [guardTok, Except.isOk, Except.toBool]
  | some t =>
    cases hp : p t <;> simp [guardTok, hp, Except.isOk, Except.toBool]

theorem guardTok_ok (o : Option TokenEntity) (p : TokenEntity → Bool) (msg : String)
    (t : TokenEntity) (h : o = some t) (hp : p t = true) : guardTok o p msg = .ok t := by
  simp [guardTok, h, hp]

theorem promiseAll_error (fetch : String → Except String ChainTokens)
    (chains : List String) (h : ∃ c, c ∈ chains ∧ ∃ e, fetch c = .error e) :
    ∃ e, promiseAll fetch chains = .error e := by
  induction chains with
  | nil =>
    rcases h with ⟨c, hc, -⟩
    cases hc
  | cons c cs ih =>
    rcases h with ⟨d, hd, e, he⟩
    rcases List.mem_cons.mp hd with rfl | hmem
    · cases hall : promiseAll fetch cs <;> exact ⟨e, by simp [promiseAll, he, hall]⟩
    · rcases ih ⟨d, hmem, e, he⟩ with ⟨f, hf⟩
      cases hc : fetch c with
      | error e0 => exact ⟨e0, by simp [promiseAll, hc]⟩
      | ok t => exact ⟨f, by simp [promiseAll, hc, hf]⟩

/-! ## Lemmas about `addToken` and its fold -/

theorem sansBridge_set_bridge (u : TokenEntity) (x : Option String) :
    sansBridge { u with bridge := x } = sansBridge u := rfl

theorem coreOf_set_symbol_oracleId (u : TokenEntity) (s o : String) :
    coreOf { u with symbol := s, oracleId := o } = coreOf u := rfl

theorem coreOf_congr_of_sansBridge {a b : TokenEntity}
    (h : sansBridge a = sansBridge b) : coreOf a = coreOf b := by
  have ha : coreOf (sansBridge a) = coreOf a := rfl
  have hb : coreOf (sansBridge b) = coreOf b := rfl
  rw [← ha, ← hb, h]

theorem addToken_byId_eq (chk : String → String) (t : TokenEntity) (acc : ChainTokens)
    (id : String) :
    (addToken chk t acc).byId id =
      if t.id = id ∧ acc.byId id = none then some (strLower t.address)
      else acc.byId id := by
  unfold addToken
  by_cases hid : t.id = id
  · subst hid
    cases h : acc.byId t.id
    · simp [h, strMap_insert_self]
    · simp [h]
  · cases h : acc.byId t.id
    · simp only [h]
      rw [strMap_insert_other _ _ (fun hq => hid hq.symm)]
      simp [hid]
    · simp [h, hid]

theorem fold_byId (chk : String → String) (l : List TokenEntity) :
    ∀ (acc : ChainTokens) (id : String),
      (l.foldl (fun acc t => addToken chk t acc) acc).byId id =
        match acc.byId id with
        | some a => some a
        | none => (l.find? (fun t => t.id == id)).map (fun t => strLower t.address) := by
  induction l with
  | nil =>
    intro acc id
    cases h : acc.byId id <;> simp [h]
  | cons t ts ih =>
    intro acc id
    rw [List.foldl_cons, ih]
    rw [addToken_byId_eq]
    by_cases hid : t.id = id
    · cases h : acc.byId id
      · simp [hid, h, List.find?_cons_of_pos]
      · simp [hid, h]
    · have hpred : (t.id == id) = false := by simp [hid]
      cases h : acc.byId id
      · simp [hid, h, List.find?_cons_of_neg, hpred]
      · simp [hid, h]

theorem addToken_byAddress_other (chk : String → String) (t : TokenEntity)
    (acc : ChainTokens) (k : String) (h : strLower t.address ≠ k) :
    (addToken chk t acc).byAddress k = acc.byAddress k := by
  unfold addToken
  cases hm : acc.byAddress (strLower t.address)
  · simp only [hm]
    exact strMap_insert_other _ _ (fun hq => h hq.symm)
  · simp only [hm]
    split
    · exact strMap_insert_other _ _ (fun hq => h hq.symm)
    · rfl

theorem addToken_byAddress_fresh (chk : String → String) (t : TokenEntity)
    (acc : ChainTokens) (h : acc.byAddress (strLower t.address) = none) :
    (addToken chk t acc).byAddress (strLower t.address) = some (storeForm chk t) := by
  unfold addToken
  simp only [h]
  exact strMap_insert_self _ _ _

theorem addToken_byAddress_existing (chk : String → String) (t : TokenEntity)
    (acc : ChainTokens) (k : String) (u : TokenEntity) (h : acc.byAddress k = some u) :
    ∃ v, (addToken chk t acc).byAddress k = some v ∧ sansBridge v = sansBridge u := by
  by_cases hk : strLower t.address = k
  · subst hk
    unfold addToken
    simp only [h]
    split
    · exact ⟨_, strMap_insert_self _ _ _, sansBridge_set_bridge u t.bridge⟩
    · exact ⟨u, h, rfl⟩
  · exact ⟨u, by rw [addToken_byAddress_other chk t acc k hk, h], rfl⟩

theorem addToken_byAddress_own (chk : String → String) (t : TokenEntity)
    (acc : ChainTokens) :
    ((addToken chk t acc).byAddress (strLower t.address)).isSome = true := by
  cases h : acc.byAddress (strLower t.address)
  · rw [addToken_byAddress_fresh chk t acc h]
    rfl
  · rcases addToken_byAddress_existing chk t acc _ _ h with ⟨v, hv, -⟩
    rw [hv]
    rfl

theorem fold_byAddress_other (chk : String → String) (l : List TokenEntity) (k : String)
    (hall : ∀ t ∈ l, strLower t.address ≠ k) :
    ∀ acc : ChainTokens,
      (l.foldl (fun acc t => addToken chk t acc) acc).byAddress k = acc.byAddress k := by
  induction l with
  | nil => intro acc; rfl
  | cons t ts ih =>
    intro acc
    rw [List.foldl_cons, ih (fun s hs => hall s (List.mem_cons_of_mem t hs)),
      addToken_byAddress_other chk t acc k (hall t (List.mem_cons_self t ts))]

theorem fold_byAddress_existing (chk : String → String) (l : List TokenEntity) :
    ∀ (acc : ChainTokens) (k : String) (u : TokenEntity), acc.byAddress k = some u →
      ∃ v, (l.foldl (fun acc t => addToken chk t acc) acc).byAddress k = some v ∧
        sansBridge v = sansBridge u := by
  induction l with
  | nil => exact fun acc k u h => ⟨u, h, rfl⟩
  | cons t ts ih =>
    intro acc k u h
    rcases addToken_byAddress_existing chk t acc k u h with ⟨v, hv, hvb⟩
    rcases ih (addToken chk t acc) k v hv with ⟨w, hw, hwb⟩
    exact ⟨w, by rw [List.foldl_cons]; exact hw, by rw [hwb, hvb]⟩

theorem fold_byAddress_isSome (chk : String → String) (l : List TokenEntity)
    (acc : ChainTokens) (k : String) (h : (acc.byAddress k).isSome = true) :
    ((l.foldl (fun acc t => addToken chk t acc) acc).byAddress k).isSome = true := by
  rcases Option.isSome_iff_exists.mp h with ⟨u, hu⟩
  rcases fold_byAddress_existing chk l acc k u hu with ⟨v, hv, -⟩
  rw [hv]
  rfl

theorem fold_byAddress_mem (chk : String → String) (l : List TokenEntity) :
    ∀ (acc : ChainTokens) (t : TokenEntity), t ∈ l →
      ((l.foldl (fun acc t => addToken chk t acc) acc).byAddress
        (strLower t.address)).isSome = true := by
  induction l with
  | nil => intro acc t ht; cases ht
  | cons s ss ih =>
    intro acc t ht
    rw [List.foldl_cons]
    rcases List.mem_cons.mp ht with rfl | hmem
    · exact fold_byAddress_isSome chk ss _ _ (addToken_byAddress_own chk t acc)
    · exact ih _ t hmem

theorem fold_byAddress_first (chk : String → String) (l1 : List TokenEntity)
    (f : TokenEntity) (l2 : List TokenEntity) (acc : ChainTokens)
    (hl1 : ∀ x ∈ l1, strLower x.address ≠ strLower f.address)
    (hacc : acc.byAddress (strLower f.address) = none) :
    ∃ u, ((l1 ++ f :: l2).foldl (fun acc t => addToken chk t acc) acc).byAddress
        (strLower f.address) = some u ∧
      sansBridge u = sansBridge (storeForm chk f) := by
  rw [List.foldl_append, List.foldl_cons]
  have h1 : (l1.foldl (fun acc t => addToken chk t acc) acc).byAddress
      (strLower f.address) = none := by
    rw [fold_byAddress_other chk l1 _ hl1 acc]
    exact hacc
  exact fold_byAddress_existing chk l2 _ _ _ (addToken_byAddress_fresh chk f _ h1)

/-! ## Lemmas about the address-book precedence pass -/

theorem applyOverride_other (m : StrMap TokenEntity) (t : TokenEntity) (k : String)
    (h : strLower t.address ≠ k) : applyOverride m t k = m k := by
  unfold applyOverride
  cases hm : m (strLower t.address)
  · rfl
  · exact strMap_insert_other _ _ (fun hq => h hq.symm)

theorem applyOverride_self (m : StrMap TokenEntity) (t : TokenEntity) (u : TokenEntity)
    (h : m (strLower t.address) = some u) :
    applyOverride m t (strLower t.address) =
      some { u with oracleId := t.oracleId, symbol := t.symbol } := by
  unfold applyOverride
  rw [h]
  exact strMap_insert_self _ _ _

theorem applyOverride_existing (m : StrMap TokenEntity) (t : TokenEntity) (k : String)
    (u : TokenEntity) (h : m k = some u) :
    ∃ v, applyOverride m t k = some v ∧ coreOf v = coreOf u ∧ v.bridge = u.bridge := by
  by_cases hk : strLower t.address = k
  · subst hk
    rw [applyOverride_self m t u h]
    exact ⟨_, rfl, coreOf_set_symbol_oracleId u t.symbol t.oracleId, rfl⟩
  · exact ⟨u, by rw [applyOverride_other m t k hk, h], rfl, rfl⟩

theorem applyOverride_isSome (m : StrMap TokenEntity) (t : TokenEntity) (k : String) :
    (applyOverride m t k).isSome = (m k).isSome := by
  by_cases hk : strLower t.address = k
  · subst hk
    cases h : m (strLower t.address)
    · unfold applyOverride
      simp [h]
    · rw [applyOverride_self m t _ h]
      rfl
  · rw [applyOverride_other m t k hk]

theorem foldOverride_other (l : List TokenEntity) (k : String)
    (hall : ∀ t ∈ l, strLower t.address ≠ k) :
    ∀ m : StrMap TokenEntity, l.foldl applyOverride m k = m k := by
  induction l with
  | nil => intro m; rfl
  | cons t ts ih =>
    intro m
    rw [List.foldl_cons, ih (fun s hs => hall s (List.mem_cons_of_mem t hs)),
      applyOverride_other m t k (hall t (List.mem_cons_self t ts))]

theorem foldOverride_existing (l : List TokenEntity) :
    ∀ (m : StrMap TokenEntity) (k : String) (u : TokenEntity), m k = some u →
      ∃ v, l.foldl applyOverride m k = some v ∧ coreOf v = coreOf u ∧
        v.bridge = u.bridge := by
  induction l with
  | nil => exact fun m k u h => ⟨u, h, rfl, rfl⟩
  | cons t ts ih =>
    intro m k u h
    rcases applyOverride_existing m t k u h with ⟨v, hv, hvc, hvb⟩
    rcases ih (applyOverride m t) k v hv with ⟨w, hw, hwc, hwb⟩
    exact ⟨w, by rw [List.foldl_cons]; exact hw, by rw [hwc, hvc], by rw [hwb, hvb]⟩

theorem foldOverride_isSome (l : List TokenEntity) :
    ∀ (m : StrMap TokenEntity) (k : String),
      (l.foldl applyOverride m k).isSome = (m k).isSome := by
  induction l with
  | nil => intro m k; rfl
  | cons t ts ih =>
    intro m k
    rw [List.foldl_cons, ih, applyOverride_isSome]

/-! ## Lemmas about `mergeTokens` and `fetchTokensForChain` -/

theorem merge_byId (chk : String → String)
    (vaultTokens boostTokens abTokens : List TokenEntity) (id : String) :
    (mergeTokens chk vaultTokens boostTokens abTokens).byId id =
      (((vaultTokens ++ boostTokens ++ abTokens).find? (fun t => t.id == id)).map
        (fun t => strLower t.address)) := by
  unfold mergeTokens
  rw [fold_byId]
  rfl

theorem merge_byAddress_mem (chk : String → String)
    (vaultTokens boostTokens abTokens : List TokenEntity) (t : TokenEntity)
    (ht : t ∈ vaultTokens ++ boostTokens ++ abTokens) :
    ((mergeTokens chk vaultTokens boostTokens abTokens).byAddress
      (strLower t.address)).isSome = true := by
  unfold mergeTokens
  rw [foldOverride_isSome]
  exact fold_byAddress_mem chk _ _ t ht

theorem fetch_ok_inv (chk : String → String) (isApi : String → Bool) (chainId : String)
    (vaultTokens boostTokens abTokens : List TokenEntity) (tbl : ChainTokens)
    (h : fetchTokensForChain chk isApi chainId vaultTokens boostTokens abTokens =
      .ok tbl) :
    tbl = mergeTokens chk vaultTokens boostTokens abTokens ∧
      optStrTruthy (tbl.byId "NATIVE") = true ∧
      optStrTruthy (tbl.byId "WNATIVE") = true := by
  unfold fetchTokensForChain at h
  cases ha : isApi chainId <;> rw [ha] at h
  · simp at h
  · simp only [Bool.not_true, Bool.false_eq_true, if_false] at h
    cases hn : optStrTruthy ((mergeTokens chk vaultTokens boostTokens abTokens).byId
        "NATIVE") <;> rw [hn] at h
    · simp at h
    · cases hw : optStrTruthy ((mergeTokens chk vaultTokens boostTokens abTokens).byId
          "WNATIVE") <;> rw [hw] at h
      · simp at h
      · simp only [Bool.not_true, Bool.false_eq_true, if_false, Except.ok.injEq] at h
        subst h
        exact ⟨rfl, hn, hw⟩

/-! ## Lemmas about the query surface over published tables -/

theorem getTokenById_none (reg : Registry) (id c : String) (h : reg c = none) :
    getTokenById reg id c = none := by
  unfold getTokenById
  rw [h]
  rfl

theorem merge_byId_value (chk : String → String)
    (vaultTokens boostTokens abTokens : List TokenEntity) (id a : String)
    (h : (mergeTokens chk vaultTokens boostTokens abTokens).byId id = some a) :
    ∃ f, f ∈ vaultTokens ++ boostTokens ++ abTokens ∧ a = strLower f.address := by
  rw [merge_byId] at h
  rcases Option.map_eq_some'.mp h with ⟨f, hf, hfa⟩
  exact ⟨f, List.mem_of_find?_eq_some hf, hfa.symm⟩

theorem published_isSome (chk : String → String)
    (vaultTokens boostTokens abTokens : List TokenEntity) (tbl : ChainTokens)
    (reg : Registry) (chainId id a : String)
    (htbl : tbl = mergeTokens chk vaultTokens boostTokens abTokens)
    (hreg : reg chainId = some tbl) (hid : tbl.byId id = some a) (hne : a ≠ "") :
    (getTokenById reg id chainId).isSome = true := by
  subst htbl
  rcases merge_byId_value chk vaultTokens boostTokens abTokens id a hid with ⟨f, hmem, hfa⟩
  have hlow : strLower a = a := by
    rw [hfa]
    exact strLower_idem _
  have hba : ((mergeTokens chk vaultTokens boostTokens abTokens).byAddress a).isSome
      = true := by
    rw [hfa]
    exact merge_byAddress_mem chk vaultTokens boostTokens abTokens f hmem
  have hbeq : (a == "") = false := by
    simp [hne]
  unfold getTokenById
  rw [hreg]
  simp only [Option.some_bind, hid, hbeq, Bool.false_eq_true, if_false]
  unfold getTokenByAddress
  rw [hreg]
  simp only [Option.some_bind, hlow]
  exact hba

/-! ## Lemmas about the bridge backfill branch of `addToken` -/

theorem storeForm_bridge (chk : String → String) (t : TokenEntity) :
    (storeForm chk t).bridge = t.bridge := by
  unfold storeForm
  split <;> rfl

theorem addToken_backfill (chk : String → String) (t : TokenEntity) (acc : ChainTokens)
    (u : TokenEntity) (h : acc.byAddress (strLower t.address) = some u)
    (hb : (!(optStrTruthy u.bridge) && optStrTruthy t.bridge) = true) :
    (addToken chk t acc).byAddress (strLower t.address) =
      some { u with bridge := t.bridge } := by
  unfold addToken
  simp only [h, hb, if_true]
  exact strMap_insert_self _ _ _

theorem addToken_no_backfill (chk : String → String) (t : TokenEntity)
    (acc : ChainTokens) (u : TokenEntity)
    (h : acc.byAddress (strLower t.address) = some u)
    (hb : (!(optStrTruthy u.bridge) && optStrTruthy t.bridge) = false) :
    (addToken chk t acc).byAddress = acc.byAddress := by
  unfold addToken
  simp only [h, hb, Bool.false_eq_true, if_false]

/-! ## Lemmas about the boost adapter fold -/

theorem boost_fold_inner (toApi : String → String) (chainId : String)
    (vaultAddresses : List String) (rewards : List BoostReward) :
    ∀ acc : List TokenEntity,
      rewards.foldl
        (fun tokens reward =>
          match boostRewardRecord? toApi chainId vaultAddresses reward with
          | some t => tokens ++ [t]
          | none => tokens)
        acc =
      acc ++ rewards.filterMap (boostRewardRecord? toApi chainId vaultAddresses) := by
  induction rewards with
  | nil => intro acc; simp
  | cons r rs ih =>
    intro acc
    rw [List.foldl_cons]
    cases hr : boostRewardRecord? toApi chainId vaultAddresses r with
    | none =>
      simp only [hr]
      rw [ih acc, List.filterMap_cons_none hr]
    | some v =>
      simp only [hr]
      rw [ih (acc ++ [v]), List.filterMap_cons_some hr]
      simp

theorem boost_eq_flatMap (toApi : String → String) (chainId : String)
    (boosts : List Boost) (vaults : List Vault) :
    fetchBoostTokensForChain toApi chainId boosts vaults =
      boosts.flatMap (fun b => b.rewards.filterMap
        (boostRewardRecord? toApi chainId
          (vaults.map (fun v => v.earnContractAddress)))) := by
  unfold fetchBoostTokensForChain
  suffices haux : ∀ (l : List Boost) (acc : List TokenEntity),
      l.foldl
        (fun tokens boost =>
          boost.rewards.foldl
            (fun tokens reward =>
              match boostRewardRecord? toApi chainId
                  (vaults.map (fun v => v.earnContractAddress)) reward with
              | some t => tokens ++ [t]
              | none => tokens)
            tokens)
        acc =
      acc ++ l.flatMap (fun b => b.rewards.filterMap
        (boostRewardRecord? toApi chainId
          (vaults.map (fun v => v.earnContractAddress)))) by
    exact (haux boosts []).trans (List.nil_append _)
  intro l
  induction l with
  | nil => intro acc; simp
  | cons b bs ih =>
    intro acc
    rw [List.foldl_cons, boost_fold_inner, ih, List.flatMap_cons, List.append_assoc]

theorem boostRewardRecord?_some_inv (toApi : String → String) (chainId : String)
    (vaultAddresses : List String) (rwd : BoostReward) (r : TokenEntity)
    (h : boostRewardRecord? toApi chainId vaultAddresses rwd = some r) :
    rwd.type = "token" ∧
      ∃ a, rwd.address = some a ∧ a ≠ "" ∧ a ≠ "native" ∧ a ∉ vaultAddresses := by
  cases hcond : boostRewardKeep vaultAddresses rwd with
  | false =>
    unfold boostRewardRecord? at h
    rw [hcond] at h
    simp at h
  | true =>
    unfold boostRewardKeep at hcond
    simp only [Bool.and_eq_true, beq_iff_eq, bne_iff_ne, Bool.not_eq_true'] at hcond
    obtain ⟨⟨⟨hty, htr⟩, hnat⟩, hvz⟩ := hcond
    rcases (optStrTruthy_iff _).mp htr with ⟨a, ha, hane⟩
    refine ⟨hty, a, ha, hane, ?_, ?_⟩
    · rw [ha] at hnat
      simpa using hnat
    · intro hmem
      have hc : vaultAddresses.contains a = true := List.elem_iff.mpr hmem
      rw [ha] at hvz
      simp only [Option.getD_some] at hvz
      rw [hc] at hvz
      cases hvz

/-! ## Claim theorems -/

/-- C1 (amended): for every chain whose refresh cycle succeeds, the id-map
contains truthy entries for `NATIVE` and `WNATIVE`, and the two-step lookup
resolves each of them to some record in the published table.  (The variant of
the resolved record is NOT guaranteed; see the counterexample.) -/
theorem c1_refresh_validates_and_resolves
    (chk toApi : String → String) (isApi : String → Bool) (chainId : String)
    (vaults : List Vault) (boosts : List Boost) (scVaults : List Vault)
    (book : Option ChainBook) (tbl : ChainTokens) (reg : Registry)
    (h : fetchTokensForChainFull chk toApi isApi chainId vaults boosts scVaults book
      = .ok tbl)
    (hreg : reg chainId = some tbl) :
    (∃ a, tbl.byId "NATIVE" = some a ∧ a ≠ "") ∧
    (∃ a, tbl.byId "WNATIVE" = some a ∧ a ≠ "") ∧
    (getTokenById reg "NATIVE" chainId).isSome = true ∧
    (getTokenById reg "WNATIVE" chainId).isSome = true := by
  have h0 : fetchTokensForChain chk isApi chainId
      (fetchVaultTokensForChain chainId vaults)
      (fetchBoostTokensForChain toApi chainId boosts scVaults)
      (fetchAddressBookTokensForChain chainId book) = .ok tbl := h
  rcases fetch_ok_inv _ _ _ _ _ _ _ h0 with ⟨htbl, hn, hw⟩
  rcases (optStrTruthy_iff _).mp hn with ⟨a, ha, hane⟩
  rcases (optStrTruthy_iff _).mp hw with ⟨b, hb, hbne⟩
  exact ⟨⟨a, ha, hane⟩, ⟨b, hb, hbne⟩,
    published_isSome chk _ _ _ tbl reg chainId "NATIVE" a htbl hreg ha hane,
    published_isSome chk _ _ _ tbl reg chainId "WNATIVE" b htbl hreg hb hbne⟩

/-- C1 counterexample: a vault whose deposit token is (legally) given the id
`NATIVE` wins the first-write race for the id-map, the refresh still succeeds,
and the two-step lookup then resolves `NATIVE` to an erc20-variant record —
refuting the claim that a successful refresh resolves `NATIVE` to the Native
variant. -/
theorem c1_counterexample :
    c1Fetch.isOk = true ∧
    (getTokenById c1Registry "NATIVE" "eth").map (fun t => t.type)
      = some TokenType.erc20 :=
  ⟨rfl, rfl⟩

/-- C1 witness: a healthy refresh on chain `eth` resolves both ids. -/
theorem c1_witness :
    (getTokenById ethRegistry "NATIVE" "eth").isSome = true ∧
    (getTokenById ethRegistry "WNATIVE" "eth").isSome = true := by
  have h := c1_refresh_validates_and_resolves idStr idStr (fun _ => true) "eth"
    [] [] [] (some ethBook) ethTable ethRegistry rfl rfl
  exact ⟨h.2.2.1, h.2.2.2⟩

/-- C2: cycle atomicity — if aggregation fails for at least one chain in the
cycle, no chain's table is published: the registry after `updateTokens` equals
the registry before it, at every chain. -/
theorem c2_cycle_atomicity (fetch : String → Except String ChainTokens)
    (chains : List String) (reg : Registry)
    (h : ∃ c, c ∈ chains ∧ ∃ e, fetch c = .error e) :
    ∀ c, updateTokens fetch chains reg c = reg c := by
  rcases promiseAll_error fetch chains h with ⟨e, he⟩
  intro c
  unfold updateTokens
  rw [he]

/-- C2 witness: chain `bad` fails, so even successful chain `eth` keeps its
pre-cycle registry entry. -/
theorem c2_witness :
    updateTokens c2Fetch ["eth", "bad"] emptyRegistry "eth" = emptyRegistry "eth" :=
  c2_cycle_atomicity c2Fetch ["eth", "bad"] emptyRegistry
    ⟨"bad", by simp, "boom", rfl⟩ "eth"

/-- C3: first-write-wins id mapping with source priority — the id-map entry for
any id is the lower-cased address of the first record carrying that id in the
concatenation vault ++ boost ++ curated (so an earlier record always beats a
later one sharing its id), while every record, winner or loser, still has its
lower-cased address present in the address-map. -/
theorem c3_first_write_wins (chk : String → String)
    (vaultTokens boostTokens abTokens : List TokenEntity) (id : String) :
    (mergeTokens chk vaultTokens boostTokens abTokens).byId id =
      (((vaultTokens ++ boostTokens ++ abTokens).find? (fun t => t.id == id)).map
        (fun t => strLower t.address)) ∧
    ∀ t ∈ vaultTokens ++ boostTokens ++ abTokens,
      ((mergeTokens chk vaultTokens boostTokens abTokens).byAddress
        (strLower t.address)).isSome = true :=
  ⟨merge_byId chk vaultTokens boostTokens abTokens id,
    fun t ht => merge_byAddress_mem chk vaultTokens boostTokens abTokens t ht⟩

/-- C3 witness: with two records sharing id `X`, the vault-derived one wins the
id-map, and the curated one is still inserted into the address-map. -/
theorem c3_witness :
    (mergeTokens idStr [wTok1] [] [wTok2]).byId "X" = some (strLower wTok1.address) ∧
    ((mergeTokens idStr [wTok1] [] [wTok2]).byAddress
      (strLower wTok2.address)).isSome = true := by
  have h := c3_first_write_wins idStr [wTok1] [] [wTok2] "X"
  exact ⟨h.1.trans rfl, h.2 wTok2 (by simp)⟩

/-- The address-map of `mergeTokens` is the override pass applied to the
address-map of the insertion fold. -/
theorem merge_byAddress_eq (chk : String → String)
    (vaultTokens boostTokens abTokens : List TokenEntity) :
    (mergeTokens chk vaultTokens boostTokens abTokens).byAddress =
      abTokens.foldl applyOverride
        (((vaultTokens ++ boostTokens ++ abTokens).foldl
          (fun acc t => addToken chk t acc) emptyChainTokens).byAddress) := rfl

/-- C4: curated override — for a curated record `t` (the last curated record at
its lower-cased address), the final address-map entry carries `t`'s `symbol`
and `oracleId`, while the fields never touched by the override or the bridge
backfill (`coreOf`: type, id, name, chainId, oracle, address, decimals,
staked) are those of the first writer `f` at that address, as stored. -/
theorem c4_curated_override (chk : String → String)
    (vaultTokens boostTokens abTokens : List TokenEntity) (t f : TokenEntity)
    (a1 a2 l1 l2 : List TokenEntity)
    (hab : abTokens = a1 ++ t :: a2)
    (hlast : ∀ x ∈ a2, strLower x.address ≠ strLower t.address)
    (hconcat : vaultTokens ++ boostTokens ++ abTokens = l1 ++ f :: l2)
    (hfk : strLower f.address = strLower t.address)
    (hfirst : ∀ x ∈ l1, strLower x.address ≠ strLower t.address) :
    ∃ u, (mergeTokens chk vaultTokens boostTokens abTokens).byAddress
        (strLower t.address) = some u ∧
      u.symbol = t.symbol ∧ u.oracleId = t.oracleId ∧
      coreOf u = coreOf (storeForm chk f) := by
  subst hab
  rw [merge_byAddress_eq, List.foldl_append, List.foldl_cons]
  have hbase : ∃ u0, (((vaultTokens ++ boostTokens ++ (a1 ++ t :: a2)).foldl
      (fun acc t => addToken chk t acc) emptyChainTokens).byAddress)
      (strLower t.address) = some u0 ∧
      sansBridge u0 = sansBridge (storeForm chk f) := by
    rw [hconcat, ← hfk]
    exact fold_byAddress_first chk l1 f l2 emptyChainTokens
      (fun x hx => by rw [hfk]; exact hfirst x hx) rfl
  obtain ⟨u0, hu0, hu0b⟩ := hbase
  obtain ⟨u1, hu1, hu1c, -⟩ := foldOverride_existing a1 _ (strLower t.address) u0 hu0
  refine ⟨{ u1 with oracleId := t.oracleId, symbol := t.symbol }, ?_, rfl, rfl, ?_⟩
  · rw [foldOverride_other a2 _ hlast, applyOverride_self _ t u1 hu1]
  · rw [coreOf_set_symbol_oracleId, hu1c]
    exact coreOf_congr_of_sansBridge hu0b

/-- C4 witness: a curated record at the address first written by a vault
record: symbol and oracleId come from the curated record, core fields from the
stored vault record. -/
theorem c4_witness :
    ∃ u, (mergeTokens idStr [wTok1] [] [wTok2]).byAddress (strLower wTok2.address)
        = some u ∧
      u.symbol = wTok2.symbol ∧ u.oracleId = wTok2.oracleId ∧
      coreOf u = coreOf (storeForm idStr wTok1) :=
  c4_curated_override idStr [wTok1] [] [wTok2] wTok2 wTok1 [] [] [] [wTok2]
    rfl (by simp) rfl (by decide) (by simp)

/-- C5: bridge backfill — inserting a bridge-less record and then a same-address
record carrying a (truthy) bridge tag leaves the stored record equal to the
first record's stored form with only `bridge` replaced; conversely, when the
first record already carries a bridge tag, a later same-address record leaves
the address-map entry untouched. -/
theorem c5_bridge_backfill (chk : String → String) (t1 t2 : TokenEntity)
    (acc : ChainTokens) (hk : strLower t2.address = strLower t1.address)
    (h0 : acc.byAddress (strLower t1.address) = none) :
    (optStrTruthy t1.bridge = false → optStrTruthy t2.bridge = true →
      (addToken chk t2 (addToken chk t1 acc)).byAddress (strLower t1.address)
        = some { storeForm chk t1 with bridge := t2.bridge }) ∧
    (optStrTruthy t1.bridge = true →
      (addToken chk t2 (addToken chk t1 acc)).byAddress (strLower t1.address)
        = (addToken chk t1 acc).byAddress (strLower t1.address)) := by
  have h1 : (addToken chk t1 acc).byAddress (strLower t1.address)
      = some (storeForm chk t1) := addToken_byAddress_fresh chk t1 acc h0
  have h1k : (addToken chk t1 acc).byAddress (strLower t2.address)
      = some (storeForm chk t1) := by
    rw [hk]
    exact h1
  constructor
  · intro hb1 hb2
    have hb : (!(optStrTruthy (storeForm chk t1).bridge) && optStrTruthy t2.bridge)
        = true := by
      rw [storeForm_bridge, hb1, hb2]
      rfl
    have hres := addToken_backfill chk t2 (addToken chk t1 acc) _ h1k hb
    rw [← hk]
    exact hres
  · intro hb1
    have hb : (!(optStrTruthy (storeForm chk t1).bridge) && optStrTruthy t2.bridge)
        = false := by
      rw [storeForm_bridge, hb1]
      rfl
    rw [addToken_no_backfill chk t2 (addToken chk t1 acc) _ h1k hb]

/-- C5 witness: bridge-less `wTok1` then bridge-tagged `wTok2` at the same
lower-cased address. -/
theorem c5_witness :
    (addToken idStr wTok2 (addToken idStr wTok1 emptyChainTokens)).byAddress
      (strLower wTok1.address)
      = some { storeForm idStr wTok1 with bridge := wTok2.bridge } :=
  (c5_bridge_backfill idStr wTok1 wTok2 emptyChainTokens (by decide) rfl).1 rfl rfl

/-- C6: `getTokenNative` fails exactly when the chain has no published table or
no Native-variant record is resolvable under id `NATIVE`; otherwise it returns
that record.  Likewise `getTokenWrappedNative` with `WNATIVE` and the erc20
variant. -/
theorem c6_native_wnative_guard (reg : Registry) (c : String) :
    ((getTokenNative reg c).isOk = false ↔
      (reg c = none ∨
        ¬∃ t, getTokenById reg "NATIVE" c = some t ∧ isTokenNative t = true)) ∧
    (∀ t, getTokenById reg "NATIVE" c = some t → isTokenNative t = true →
      getTokenNative reg c = .ok t) ∧
    ((getTokenWrappedNative reg c).isOk = false ↔
      (reg c = none ∨
        ¬∃ t, getTokenById reg "WNATIVE" c = some t ∧ isTokenErc20 t = true)) ∧
    (∀ t, getTokenById reg "WNATIVE" c = some t → isTokenErc20 t = true →
      getTokenWrappedNative reg c = .ok t) := by
  have keyN : (getTokenNative reg c).isOk = false ↔
      ¬∃ t, getTokenById reg "NATIVE" c = some t ∧ isTokenNative t = true :=
    guardTok_isOk_false_iff _ _ _
  have keyW : (getTokenWrappedNative reg c).isOk = false ↔
      ¬∃ t, getTokenById reg "WNATIVE" c = some t ∧ isTokenErc20 t = true :=
    guardTok_isOk_false_iff _ _ _
  refine ⟨⟨fun h => Or.inr (keyN.mp h), fun h => ?_⟩,
    fun t ht hp => guardTok_ok _ _ _ t ht hp,
    ⟨fun h => Or.inr (keyW.mp h), fun h => ?_⟩,
    fun t ht hp => guardTok_ok _ _ _ t ht hp⟩
  · rcases h with h | h
    · refine keyN.mpr ?_
      rintro ⟨t, ht, -⟩
      rw [getTokenById_none reg _ c h] at ht
      cases ht
    · exact keyN.mpr h
  · rcases h with h | h
    · refine keyW.mpr ?_
      rintro ⟨t, ht, -⟩
      rw [getTokenById_none reg _ c h] at ht
      cases ht
    · exact keyW.mpr h

/-- C6 witness: on the published `eth` table both getters return the expected
records. -/
theorem c6_witness :
    getTokenNative ethRegistry "eth" = .ok ethNative ∧
    getTokenWrappedNative ethRegistry "eth" = .ok ethWnative := by
  have h := c6_native_wnative_guard ethRegistry "eth"
  exact ⟨h.2.1 ethNative rfl rfl, h.2.2.2 ethWnative rfl rfl⟩

/-- C7 counterexample: on a registry with no published table for the token's
chain, `wrappedToNative` throws (the wrapped-native resolution runs before the
equality test), instead of returning the input record unchanged as the claim's
else-branch asserts. -/
theorem c7_counterexample :
    wrappedToNative emptyRegistry fooToken
      = .error "No wnative token found for chain eth" := rfl

/-- C7 (amended): when the chain's wrapped-native record is resolvable, a
record that is not `areTokensEqual` to it is returned unchanged without
failure, and a record equal to it yields the outcome of `getTokenNative`; when
the wrapped-native record is not resolvable, the call fails instead of
returning the record unchanged. -/
theorem c7_wrapped_to_native (reg : Registry) (t wn : TokenEntity)
    (h : getTokenWrappedNative reg t.chainId = .ok wn) :
    (areTokensEqual t wn = false → wrappedToNative reg t = .ok t) ∧
    (areTokensEqual t wn = true →
      wrappedToNative reg t = getTokenNative reg t.chainId) := by
  constructor
  · intro he
    unfold wrappedToNative
    rw [h]
    simp [he]
  · intro he
    unfold wrappedToNative
    rw [h]
    simp [he]

/-- C7 witness: `fooToken` is not the wrapped-native of `eth`, so it passes
through unchanged. -/
theorem c7_witness : wrappedToNative ethRegistry fooToken = .ok fooToken :=
  (c7_wrapped_to_native ethRegistry fooToken ethWnative rfl).1 rfl

/-- C8: the boost adapter emits a record only for rewards that are of token
type, with a truthy address, not the native sentinel, and not in the
precomputed set of the chain's vault receipt-token addresses; in particular a
reward addressed at a known vault receipt token is never kept. -/
theorem c8_boost_exclusions (toApi : String → String) (chainId : String)
    (boosts : List Boost) (scVaults : List Vault) :
    (∀ r, r ∈ fetchBoostTokensForChain toApi chainId boosts scVaults →
      ∃ b, b ∈ boosts ∧ ∃ rwd, rwd ∈ b.rewards ∧ rwd.type = "token" ∧
        (∃ a, rwd.address = some a ∧ a ≠ "" ∧ a ≠ "native" ∧
          a ∉ scVaults.map (fun v => v.earnContractAddress)) ∧
        boostRewardRecord? toApi chainId
          (scVaults.map (fun v => v.earnContractAddress)) rwd = some r) ∧
    (∀ (rwd : BoostReward) (a : String), rwd.address = some a →
      a ∈ scVaults.map (fun v => v.earnContractAddress) →
      boostRewardRecord? toApi chainId
        (scVaults.map (fun v => v.earnContractAddress)) rwd = none) := by
  constructor
  · intro r hr
    rw [boost_eq_flatMap] at hr
    rcases List.mem_flatMap.mp hr with ⟨b, hb, hrb⟩
    rcases List.mem_filterMap.mp hrb with ⟨rwd, hrwd, hemit⟩
    rcases boostRewardRecord?_some_inv _ _ _ _ _ hemit with ⟨hty, a, ha, h1, h2, h3⟩
    exact ⟨b, hb, rwd, hrwd, hty, ⟨a, ha, h1, h2, h3⟩, hemit⟩
  · intro rwd a ha hmem
    have hk : boostRewardKeep (scVaults.map (fun v => v.earnContractAddress)) rwd
        = false := by
      unfold boostRewardKeep
      have hc : (scVaults.map (fun v => v.earnContractAddress)).contains a = true :=
        List.elem_iff.mpr hmem
      rw [ha]
      simp only [Option.getD_some, hc, Bool.not_true, Bool.and_false]
    simp [boostRewardRecord?, hk]

/-- C8 witness: a reward addressed at `mooVault`'s receipt token is rejected by
the guard. -/
theorem c8_witness :
    boostRewardRecord? idStr "eth" ([mooVault].map (fun v => v.earnContractAddress))
      mooReward = none :=
  (c8_boost_exclusions idStr "eth" [] [mooVault]).2 mooReward "0xmoo" rfl
    (by simp [mooVault])

/-- C9: `getTokenFees` fails exactly when the chain has no published table or
no erc20-variant record is resolvable under id `FEES`, and otherwise returns
that record; moreover (unlike `NATIVE`/`WNATIVE`) the presence of `FEES` is
not validated during refresh: the concrete `eth` refresh succeeds with table
`ethTable` and yet `getTokenFees` fails on the resulting registry. -/
theorem c9_fees_guard :
    (∀ (reg : Registry) (c : String),
      ((getTokenFees reg c).isOk = false ↔
        (reg c = none ∨
          ¬∃ t, getTokenById reg "FEES" c = some t ∧ isTokenErc20 t = true)) ∧
      (∀ t, getTokenById reg "FEES" c = some t → isTokenErc20 t = true →
        getTokenFees reg c = .ok t)) ∧
    fetchTokensForChainFull idStr idStr (fun _ => true) "eth" [] [] [] (some ethBook)
      = .ok ethTable ∧
    (getTokenFees ethRegistry "eth").isOk = false := by
  refine ⟨fun reg c => ⟨?_, fun t ht hp => guardTok_ok _ _ _ t ht hp⟩, rfl, rfl⟩
  have key : (getTokenFees reg c).isOk = false ↔
      ¬∃ t, getTokenById reg "FEES" c = some t ∧ isTokenErc20 t = true :=
    guardTok_isOk_false_iff _ _ _
  constructor
  · intro h
    exact Or.inr (key.mp h)
  · intro h
    rcases h with h | h
    · refine key.mpr ?_
      rintro ⟨t, ht, -⟩
      rw [getTokenById_none reg _ c h] at ht
      cases ht
    · exact key.mpr h

/-- C9 witness: on the empty registry the fees getter fails. -/
theorem c9_witness : (getTokenFees emptyRegistry "eth").isOk = false :=
  ((c9_fees_guard.1 emptyRegistry "eth").1).mpr (Or.inl rfl)


/-! ## Lemmas about the fallible aggregation pipeline -/

theorem strLower_eq_empty_iff (s : String) : strLower s = "" ↔ s = "" := by
  constructor
  · intro h
    have hnil : s.data = [] := List.map_eq_nil_iff.mp (congrArg String.data h)
    exact congrArg String.mk hnil
  · intro h
    rw [h]
    rfl

theorem strLower_ne_empty (s : String) (h : s ≠ "") : strLower s ≠ "" :=
  fun hl => h ((strLower_eq_empty_iff s).mp hl)

theorem addTokenE_some (chk? : String → Option String) (t : TokenEntity)
    (acc acc2 : ChainTokens) (h : addTokenE chk? t acc = some acc2) :
    acc2 = addToken (chkOf chk?) t acc := by
  unfold addTokenE at h
  cases hm : acc.byAddress (strLower t.address) with
  | none =>
    by_cases hn : t.type = TokenType.native
    · simp only [hm, if_pos hn] at h
      injection h with h2
      rw [← h2]
      simp [addToken, storeForm, hm, hn]
    · simp only [hm, if_neg hn] at h
      cases hc : chk? t.address with
      | none =>
        rw [hc] at h
        cases h
      | some checked =>
        simp only [hc] at h
        injection h with h2
        rw [← h2]
        simp [addToken, storeForm, hm, hn, chkOf, hc]
  | some existing =>
    cases hb : !(optStrTruthy existing.bridge) && optStrTruthy t.bridge with
    | true =>
      simp only [hm, hb, if_true] at h
      injection h with h2
      rw [← h2]
      simp [addToken, hm, hb]
    | false =>
      simp only [hm, hb, Bool.false_eq_true, if_false] at h
      injection h with h2
      rw [← h2]
      simp [addToken, hm, hb]

theorem addTokensE_eq_foldl (chk? : String → Option String) (l : List TokenEntity) :
    ∀ (acc out : ChainTokens), addTokensE chk? l acc = some out →
      out = l.foldl (fun acc t => addToken (chkOf chk?) t acc) acc := by
  induction l with
  | nil =>
    intro acc out h
    simp only [addTokensE] at h
    injection h with h2
    rw [← h2]
    rfl
  | cons t ts ih =>
    intro acc out h
    simp only [addTokensE] at h
    cases he : addTokenE chk? t acc with
    | none =>
      rw [he] at h
      cases h
    | some acc2 =>
      rw [he] at h
      rw [List.foldl_cons, ← addTokenE_some chk? t acc acc2 he]
      exact ih acc2 out h

theorem addTokensE_no_empty (chk? : String → Option String) (hchk : chk? "" = none)
    (l : List TokenEntity) :
    ∀ (acc out : ChainTokens),
      (∀ x ∈ l, x.type = TokenType.native → x.address = "native") →
      acc.byAddress "" = none → addTokensE chk? l acc = some out →
      ∀ t ∈ l, t.address ≠ "" := by
  induction l with
  | nil =>
    intro acc out _ _ _ t ht
    cases ht
  | cons s ss ih =>
    intro acc out hnat hacc h t ht
    have hstep : ∃ acc2, addTokenE chk? s acc = some acc2 ∧
        addTokensE chk? ss acc2 = some out := by
      simp only [addTokensE] at h
      cases he : addTokenE chk? s acc with
      | none =>
        rw [he] at h
        cases h
      | some acc2 =>
        rw [he] at h
        exact ⟨acc2, rfl, h⟩
    obtain ⟨acc2, he, hrest⟩ := hstep
    have hs : s.address ≠ "" := by
      intro hse
      have hns : s.type ≠ TokenType.native := by
        intro hnn
        have h2 := hnat s (List.mem_cons_self s ss) hnn
        rw [hse] at h2
        exact absurd h2 (by decide)
      have hnone : addTokenE chk? s acc = none := by
        have hsl : strLower "" = "" := rfl
        simp [addTokenE, hse, hsl, hacc, hns, hchk]
      rw [hnone] at he
      cases he
    rcases List.mem_cons.mp ht with rfl | hmem
    · exact hs
    · have hacc2 : acc2.byAddress "" = none := by
        rw [addTokenE_some chk? s acc acc2 he,
          addToken_byAddress_other (chkOf chk?) s acc "" (strLower_ne_empty _ hs)]
        exact hacc
      exact ih acc2 out (fun x hx => hnat x (List.mem_cons_of_mem s hx)) hacc2 hrest
        t hmem

theorem foldl_pred {α β : Type} (P : β → Prop) (f : List β → α → List β)
    (hf : ∀ acc x, (∀ t ∈ acc, P t) → ∀ t ∈ f acc x, P t) :
    ∀ (l : List α) (acc : List β), (∀ t ∈ acc, P t) → ∀ t ∈ l.foldl f acc, P t := by
  intro l
  induction l with
  | nil =>
    intro acc h
    exact h
  | cons x xs ih =>
    intro acc h
    rw [List.foldl_cons]
    exact ih (f acc x) (hf acc x h)

theorem vault_tokens_erc20 (chainId : String) (vaults : List Vault) :
    ∀ t ∈ fetchVaultTokensForChain chainId vaults, t.type = TokenType.erc20 := by
  unfold fetchVaultTokensForChain
  refine foldl_pred (fun (t : TokenEntity) => t.type = TokenType.erc20) _ ?_ vaults []
    (fun t ht => absurd ht (List.not_mem_nil t))
  intro acc vault hacc t ht
  dsimp only at ht
  split at ht
  · rcases List.mem_append.mp ht with ht | ht
    · split at ht
      · rcases List.mem_append.mp ht with ht | ht
        · exact hacc t ht
        · rw [List.mem_singleton.mp ht]
      · exact hacc t ht
    · rw [List.mem_singleton.mp ht]
  · split at ht
    · rcases List.mem_append.mp ht with ht | ht
      · exact hacc t ht
      · rw [List.mem_singleton.mp ht]
    · exact hacc t ht

theorem boostRewardRecord?_type (toApi : String → String) (chainId : String)
    (vaultAddresses : List String) (rwd : BoostReward) (r : TokenEntity)
    (h : boostRewardRecord? toApi chainId vaultAddresses rwd = some r) :
    r.type = TokenType.erc20 := by
  cases hk : boostRewardKeep vaultAddresses rwd with
  | false =>
    unfold boostRewardRecord? at h
    rw [hk] at h
    simp at h
  | true =>
    unfold boostRewardRecord? at h
    rw [hk] at h
    simp only [if_true] at h
    injection h with h2
    rw [← h2]
    rfl

theorem boost_tokens_erc20 (toApi : String → String) (chainId : String)
    (boosts : List Boost) (vaults : List Vault) :
    ∀ t ∈ fetchBoostTokensForChain toApi chainId boosts vaults,
      t.type = TokenType.erc20 := by
  intro t ht
  rw [boost_eq_flatMap] at ht
  rcases List.mem_flatMap.mp ht with ⟨b, -, hb⟩
  rcases List.mem_filterMap.mp hb with ⟨rwd, -, hemit⟩
  exact boostRewardRecord?_type _ _ _ _ _ hemit

theorem ab_tokens_native_address (chainId : String) (book : Option ChainBook) :
    ∀ t ∈ fetchAddressBookTokensForChain chainId book,
      t.type = TokenType.native → t.address = "native" := by
  cases book with
  | none =>
    intro t ht
    cases ht
  | some cb =>
    unfold fetchAddressBookTokensForChain
    cases hg : cb.tokens.isEmpty || (abLookup cb.tokens "WNATIVE").isNone with
    | true =>
      simp only [hg, if_true]
      intro t ht
      cases ht
    | false =>
      simp only [hg, Bool.false_eq_true, if_false]
      refine foldl_pred
        (fun (t : TokenEntity) => t.type = TokenType.native → t.address = "native") _
        ?_ cb.tokens [] (fun t ht => absurd ht (List.not_mem_nil t))
      intro acc entry hacc t ht
      split at ht
      · rcases List.mem_append.mp ht with ht | ht
        · exact hacc t ht
        · rw [List.mem_singleton.mp ht]
          intro _
          rfl
      · split at ht
        · rcases List.mem_append.mp ht with ht | ht
          · exact hacc t ht
          · rcases List.mem_cons.mp ht with rfl | ht
            · intro htype
              exact TokenType.noConfusion htype
            · rw [List.mem_singleton.mp ht]
              intro _
              rfl
        · rcases List.mem_append.mp ht with ht | ht
          · exact hacc t ht
          · rw [List.mem_singleton.mp ht]
            intro htype
            exact TokenType.noConfusion htype

theorem fetchE_ok_inv (chk? : String → Option String) (isApi : String → Bool)
    (chainId : String) (vaultTokens boostTokens abTokens : List TokenEntity)
    (tbl : ChainTokens)
    (h : fetchTokensForChainE chk? isApi chainId vaultTokens boostTokens abTokens
      = some tbl) :
    (∃ base, addTokensE chk? (vaultTokens ++ boostTokens ++ abTokens)
      emptyChainTokens = some base) ∧
      tbl = mergeTokens (chkOf chk?) vaultTokens boostTokens abTokens := by
  unfold fetchTokensForChainE at h
  cases ha : isApi chainId <;> rw [ha] at h
  · simp at h
  · simp only [Bool.not_true, Bool.false_eq_true, if_false] at h
    cases hb : addTokensE chk? (vaultTokens ++ boostTokens ++ abTokens)
        emptyChainTokens with
    | none =>
      rw [hb] at h
      cases h
    | some base =>
      simp only [hb] at h
      have hbase := addTokensE_eq_foldl chk? _ _ _ hb
      refine ⟨⟨base, rfl⟩, ?_⟩
      split at h
      · cases h
      · split at h
        · cases h
        · injection h with h2
          rw [← h2, hbase]
          rfl

/-- C10: the two-step id lookup never dangles.  Over the aggregation pipeline
with the checksummer error path (viem `getAddress` throws on an invalid
address; the hypothesis `chk? "" = none` records that it rejects the empty
string), every table produced by a successful aggregation has every id-map
value present as an address-map key, and `getTokenById` on the published
registry returns a record exactly when the id is a key of the chain's id-map. -/
theorem c10_two_step_lookup (chk? : String → Option String) (toApi : String → String)
    (isApi : String → Bool) (chainId : String) (vaults : List Vault)
    (boosts : List Boost) (scVaults : List Vault) (book : Option ChainBook)
    (tbl : ChainTokens) (reg : Registry)
    (hchk : chk? "" = none)
    (h : fetchTokensForChainFullE chk? toApi isApi chainId vaults boosts scVaults book
      = some tbl)
    (hreg : reg chainId = some tbl) :
    (∀ id a, tbl.byId id = some a → (tbl.byAddress a).isSome = true) ∧
    (∀ id, (getTokenById reg id chainId).isSome = true ↔
      (tbl.byId id).isSome = true) := by
  have h0 : fetchTokensForChainE chk? isApi chainId
      (fetchVaultTokensForChain chainId vaults)
      (fetchBoostTokensForChain toApi chainId boosts scVaults)
      (fetchAddressBookTokensForChain chainId book) = some tbl := h
  rcases fetchE_ok_inv _ _ _ _ _ _ _ h0 with ⟨⟨base, hbase⟩, htbl⟩
  have hnat : ∀ x ∈ fetchVaultTokensForChain chainId vaults
      ++ fetchBoostTokensForChain toApi chainId boosts scVaults
      ++ fetchAddressBookTokensForChain chainId book,
      x.type = TokenType.native → x.address = "native" := by
    intro x hx
    rcases List.mem_append.mp hx with hx | hx
    · rcases List.mem_append.mp hx with hx | hx
      · intro hnn
        have h2 := vault_tokens_erc20 chainId vaults x hx
        rw [h2] at hnn
        exact TokenType.noConfusion hnn
      · intro hnn
        have h2 := boost_tokens_erc20 toApi chainId boosts scVaults x hx
        rw [h2] at hnn
        exact TokenType.noConfusion hnn
    · exact ab_tokens_native_address chainId book x hx
  have hne : ∀ t ∈ fetchVaultTokensForChain chainId vaults
      ++ fetchBoostTokensForChain toApi chainId boosts scVaults
      ++ fetchAddressBookTokensForChain chainId book, t.address ≠ "" :=
    addTokensE_no_empty chk? hchk _ emptyChainTokens base hnat rfl hbase
  constructor
  · intro id a ha
    rcases merge_byId_value (chkOf chk?) _ _ _ id a (by rw [← htbl]; exact ha)
      with ⟨f, hmem, hfa⟩
    subst hfa
    rw [htbl]
    exact merge_byAddress_mem (chkOf chk?) _ _ _ f hmem
  · intro id
    constructor
    · intro hsome
      cases hid : tbl.byId id with
      | none =>
        exfalso
        unfold getTokenById at hsome
        rw [hreg] at hsome
        simp [hid] at hsome
      | some a => rfl
    · intro hsome
      rcases Option.isSome_iff_exists.mp hsome with ⟨a, ha⟩
      have hane : a ≠ "" := by
        rcases merge_byId_value (chkOf chk?) _ _ _ id a (by rw [← htbl]; exact ha)
          with ⟨f, hmem, hfa⟩
        rw [hfa]
        exact strLower_ne_empty _ (hne f hmem)
      exact published_isSome (chkOf chk?) _ _ _ tbl reg chainId id a htbl hreg ha hane

/-- C10 witness: the fallible pipeline with a checksummer that rejects the
empty string publishes the healthy `eth` table; on it, the `NATIVE` id-map
value is a live address-map key and the lookup equivalence holds. -/
theorem c10_lookup_witness :
    (ethTable.byAddress "native").isSome = true ∧
    ((getTokenById ethRegistry "NATIVE" "eth").isSome = true ↔
      (ethTable.byId "NATIVE").isSome = true) := by
  have h := c10_two_step_lookup strictChk idStr (fun _ => true) "eth" [] [] []
    (some ethBook) ethTable ethRegistry rfl rfl rfl
  exact ⟨h.1 "NATIVE" "native" rfl, h.2 "NATIVE"⟩
